import Mathlib

/-!
Shallow embedding of `src/main.rs` of the `contest` crate: a concurrency
demonstrator with two shared 64-bit XOR counters.

* `unsync.SharedUnsync` wraps `Arc<UnsafeCell<u64>>`; its `fetch_xor` is a
  plain read-modify-write (`*self.0.get() ^= other`), embedded here as the
  composition of a separable `read` and `write` step.
* `atomic.SharedAtomic` wraps `Arc<AtomicU64>`; its `fetch_xor` is the
  hardware atomic `fetch_xor` with relaxed ordering, embedded as a single
  indivisible step.

Counter contents are `Nat` values; every value the program can hold is
`< 2 ^ 64`, and bitwise XOR preserves that bound, so `Nat.xor` is a faithful
embedding of `u64` XOR.  Concurrency is modelled by explicit interleavings:
for the atomic counter an interleaving is a sequencing (a permutation) of the
indivisible `fetch_xor` operations; for the unsynchronized counter an
interleaving schedules the individual read and write micro-steps of each
`fetch_xor`.
-/

namespace Contest

namespace unsync

/-- The plain load through the `UnsafeCell` pointer: `*self.0.get()`. -/
def SharedUnsync.read (c : Nat) : Nat := c

/-- The plain store through the `UnsafeCell` pointer: `*self.0.get() = v`. -/
def SharedUnsync.write (_c v : Nat) : Nat := v

/-- Source `SharedUnsync::new`: `Arc::new(UnsafeCell::new(0))`. -/
def SharedUnsync.new : Nat := 0

/-- Source `SharedUnsync::get`: the plain load of the cell contents. -/
def SharedUnsync.get (c : Nat) : Nat := SharedUnsync.read c

/-- Source `SharedUnsync::fetch_xor`, a compound XOR assignment on the raw cell pointer: a
plain read of the current value, XOR with the operand, and a plain write of
the result. -/
def SharedUnsync.fetch_xor (c other : Nat) : Nat :=
  SharedUnsync.write c (SharedUnsync.read c ^^^ other)

end unsync

namespace atomic

/-- Source `SharedAtomic::new`: `Arc::new(AtomicU64::new(0))`. -/
def SharedAtomic.new : Nat := 0

/-- Source `SharedAtomic::get`: `self.0.load(Ordering::Relaxed)`. -/
def SharedAtomic.get (c : Nat) : Nat := c

/-- Source `SharedAtomic::fetch_xor` via `AtomicU64::fetch_xor` (relaxed),
a single indivisible read-modify-write. -/
def SharedAtomic.fetch_xor (c other : Nat) : Nat := c ^^^ other

end atomic

/-- One application event against one of the two counters. -/
inductive XorEvent
  | atomicXor (n : Nat)
  | unsyncXor (n : Nat)
deriving DecidableEq, Repr

/-- Interpret one event on the pair state (atomic value, unsync value). -/
def applyEvent (s : Nat × Nat) : XorEvent → Nat × Nat
  | XorEvent.atomicXor n => (atomic.SharedAtomic.fetch_xor s.1 n, s.2)
  | XorEvent.unsyncXor n => (s.1, unsync.SharedUnsync.fetch_xor s.2 n)

/-- Run a list of events in order on the pair state. -/
def runEvents (s : Nat × Nat) (es : List XorEvent) : Nat × Nat :=
  es.foldl applyEvent s

/-- Source `do_xors(n, atomic, unsync)`: first `atomic.fetch_xor(n)`, then
`unsync.fetch_xor(n)`, as the sequence of events it issues. -/
def do_xorsTrace (n : Nat) : List XorEvent :=
  [XorEvent.atomicXor n, XorEvent.unsyncXor n]

/-- Function `do_xors` as a state transformer on the pair (atomic value, unsync
value): the two calls it makes, executed in order. -/
def do_xors (n : Nat) (s : Nat × Nat) : Nat × Nat :=
  runEvents s (do_xorsTrace n)

/-- Source loop bound 32: the number of spawned worker threads. -/
def numThreads : Nat := 32

/-- Source loop bound 256: outer iterations per worker, one random operand each. -/
def outerIters : Nat := 256

/-- Source loop bound 2048: inner repeats, `do_xors` calls per drawn operand. -/
def innerRepeats : Nat := 2048

/-- The events one worker issues, given the operands its RNG drew: for each
operand, `innerRepeats` repetitions of `do_xors`. -/
def workerTrace (ops : List Nat) : List XorEvent :=
  (ops.map (fun n => (List.replicate innerRepeats (do_xorsTrace n)).flatten)).flatten

/-! Micro-step interleaving machine for the unsynchronized counter.

`SharedUnsync.fetch_xor` is not indivisible: its read and its write can be
scheduled separately.  We model two threads, each performing one
`fetch_xor` on the shared cell, under an arbitrary interleaving. -/

/-- Program counter of one thread executing `SharedUnsync::fetch_xor`:
not yet started, holding the value it read (the stale local copy), or done. -/
inductive TPC
  | start
  | readDone (v : Nat)
  | finished
deriving DecidableEq, Repr

/-- State of the two-thread machine: the shared `UnsafeCell` contents and
the progress of each thread through its read-modify-write. -/
structure RaceState where
  shared : Nat
  pc1 : TPC
  pc2 : TPC
deriving DecidableEq, Repr

/-- One micro-step of a thread running `SharedUnsync.fetch_xor · n`:
from `start` it performs the plain read; from `readDone v` it performs the
plain write of `v XOR n`; once finished it does nothing.  Returns the new
shared value and the new program counter. -/
def threadStep (n shared : Nat) : TPC → Nat × TPC
  | TPC.start => (shared, TPC.readDone (unsync.SharedUnsync.read shared))
  | TPC.readDone v =>
      (unsync.SharedUnsync.write shared (v ^^^ n), TPC.finished)
  | TPC.finished => (shared, TPC.finished)

/-- Scheduler step: `true` runs thread 1 (operand `n1`), `false` runs
thread 2 (operand `n2`). -/
def raceStep (n1 n2 : Nat) (s : RaceState) (t : Bool) : RaceState :=
  if t then
    let r := threadStep n1 s.shared s.pc1
    { s with shared := r.1, pc1 := r.2 }
  else
    let r := threadStep n2 s.shared s.pc2
    { s with shared := r.1, pc2 := r.2 }

/-- Run a schedule (list of thread choices) from a state. -/
def runRace (n1 n2 : Nat) (sched : List Bool) (s : RaceState) : RaceState :=
  sched.foldl (raceStep n1 n2) s

/-- Initial state: fresh counter, both threads about to run `fetch_xor`. -/
def raceInit : RaceState :=
  { shared := unsync.SharedUnsync.new, pc1 := TPC.start, pc2 := TPC.start }

/-- A thread that has read but not yet written is in the middle of its
unsynchronized read-modify-write of the shared cell. -/
def midAccess : TPC → Bool
  | TPC.readDone _ => true
  | _ => false

/-- Predicate: the unsynchronized accesses of the two threads to the shared cell overlap in
some reachable state of the schedule: both are mid read-modify-write at
once — the conflicting, unordered access pattern a race detector flags. -/
def racyOverlap (n1 n2 : Nat) (sched : List Bool) : Prop :=
  ∃ k, midAccess (runRace n1 n2 (sched.take k) raceInit).pc1 = true ∧
       midAccess (runRace n1 n2 (sched.take k) raceInit).pc2 = true

/-! Output model of `main`. -/

/-- The 64 characters printed by `{:064b}` for a `u64` value: bit 63 first
(zero-padded to 64 binary digits). -/
def toBinary64 (v : Nat) : List Char :=
  (List.range 64).map (fun i => if v.testBit (63 - i) then '1' else '0')

/-- Format `{:064b}` as a string. -/
def formatBinary64 (v : Nat) : String := String.mk (toBinary64 v)

/-- Decode a most-significant-bit-first binary digit string. -/
def bitsToNat (cs : List Char) : Nat :=
  cs.foldl (fun a c => 2 * a + (if c = '1' then 1 else 0)) 0

/-- Decimal digit accumulator for rendering a `Nat`. -/
def natToDecAux (n : Nat) (acc : List Char) : List Char :=
  if h : n = 0 then acc
  else natToDecAux (n / 10) (Char.ofNat (48 + n % 10) :: acc)
termination_by n
decreasing_by exact Nat.div_lt_self (Nat.pos_of_ne_zero h) (by decide)

/-- Render a `Nat` in decimal. -/
def natToDec (n : Nat) : String :=
  String.mk (if n = 0 then ['0'] else natToDecAux n [])

/-- Modelled from the spec: the elapsed-time value of `{:.0?}` — the
`Duration` debug rendering lives in the Rust standard library, not in this
repository — "a line reporting elapsed wall-clock time with unit suffix and
no fractional digits (e.g., `took 5ms`)": an integer count in the largest
fitting unit, followed by the suffix of that unit. -/
def formatDurationNanos (nanos : Nat) : String :=
  if nanos ≥ 1000000000 then natToDec (nanos / 1000000000) ++ "s"
  else if nanos ≥ 1000000 then natToDec (nanos / 1000000) ++ "ms"
  else if nanos ≥ 1000 then natToDec (nanos / 1000) ++ "µs"
  else natToDec nanos ++ "ns"

/-- Observable events of `main`, in program order: spawning each worker,
joining each worker, printing each line. -/
inductive MainEvent
  | spawn (i : Nat)
  | join (i : Nat)
  | printLine (s : String)
deriving DecidableEq, Repr

/-- Event trace of the driver: spawn all 32 workers, join all 32 workers,
then print `unsync: {:064b}`, `atomic: {:064b}` and `took {:.0?}`, given
the final counter values and the elapsed nanoseconds. -/
def mainTrace (u a nanos : Nat) : List MainEvent :=
  ((List.range numThreads).map MainEvent.spawn)
    ++ ((List.range numThreads).map MainEvent.join)
    ++ [MainEvent.printLine ("unsync: " ++ formatBinary64 u),
        MainEvent.printLine ("atomic: " ++ formatBinary64 a),
        MainEvent.printLine ("took " ++ formatDurationNanos nanos)]

/-- Function `main` returns `()`; on normal completion the process exit code is 0. -/
def mainExitCode : Nat := 0

/-- Does an event target the atomic counter? -/
def isAtomicEvent : XorEvent → Bool
  | XorEvent.atomicXor _ => true
  | _ => false

/-- Does an event target the unsync counter? -/
def isUnsyncEvent : XorEvent → Bool
  | XorEvent.unsyncXor _ => true
  | _ => false

/-- Number of events in a worker trace that target the atomic counter. -/
def countAtomicEvents (es : List XorEvent) : Nat :=
  es.countP isAtomicEvent

/-- Number of events in a worker trace that target the unsync counter. -/
def countUnsyncEvents (es : List XorEvent) : Nat :=
  es.countP isUnsyncEvent

/-! Helper lemmas. -/

theorem fetch_xor_right_comm (b a₁ a₂ : Nat) :
    atomic.SharedAtomic.fetch_xor (atomic.SharedAtomic.fetch_xor b a₁) a₂ =
      atomic.SharedAtomic.fetch_xor (atomic.SharedAtomic.fetch_xor b a₂) a₁ := by
  simp only [atomic.SharedAtomic.fetch_xor, Nat.xor_assoc]
  rw [Nat.xor_comm a₁ a₂]

instance : RightCommutative atomic.SharedAtomic.fetch_xor :=
  ⟨fetch_xor_right_comm⟩

theorem foldl_fetch_xor (l : List Nat) :
    ∀ a, List.foldl atomic.SharedAtomic.fetch_xor a l =
      a ^^^ List.foldr (· ^^^ ·) 0 l := by
  induction l with
  | nil => intro a; simp
  | cons x xs ih =>
      intro a
      simp only [List.foldl_cons, List.foldr_cons, ih, atomic.SharedAtomic.fetch_xor]
      rw [Nat.xor_assoc]

theorem countP_flatten_replicate (p : XorEvent → Bool) (t : List XorEvent) (k : Nat) :
    ((List.replicate k t).flatten).countP p = k * t.countP p := by
  induction k with
  | zero => simp
  | succ k ih => simp [List.replicate_succ, ih, Nat.succ_mul, Nat.add_comm]

theorem countP_workerTrace (p : XorEvent → Bool)
    (hp : ∀ n, (do_xorsTrace n).countP p = 1) (ops : List Nat) :
    (workerTrace ops).countP p = ops.length * innerRepeats := by
  induction ops with
  | nil => simp [workerTrace]
  | cons x xs ih =>
      simp only [workerTrace, List.map_cons, List.flatten_cons, List.countP_append,
        countP_flatten_replicate, hp] at ih ⊢
      simp [ih, Nat.succ_mul, Nat.add_comm, Nat.mul_one]

theorem toList_mk (l : List Char) : (String.mk l).toList = l := rfl

theorem length_mk (l : List Char) : (String.mk l).length = l.length := rfl

theorem length_toBinary64 (v : Nat) : (toBinary64 v).length = 64 := by
  simp [toBinary64]

theorem bitsToNat_append_single (l : List Char) (c : Char) :
    bitsToNat (l ++ [c]) = 2 * bitsToNat l + (if c = '1' then 1 else 0) := by
  simp [bitsToNat, List.foldl_append]

theorem bitsToNat_binChars (k : Nat) :
    ∀ v, bitsToNat ((List.range k).map
        (fun i => if v.testBit (k - 1 - i) then '1' else '0')) = v % 2 ^ k := by
  induction k with
  | zero => intro v; simp [bitsToNat, Nat.mod_one]
  | succ k ih =>
      intro v
      rw [List.range_succ, List.map_append, List.map_singleton,
        bitsToNat_append_single]
      have hmap : (List.range k).map
            (fun i => if v.testBit (k + 1 - 1 - i) then '1' else '0')
          = (List.range k).map
            (fun i => if (v / 2).testBit (k - 1 - i) then '1' else '0') := by
        apply List.map_congr_left
        intro i hi
        have hik : i < k := List.mem_range.mp hi
        have hidx : k + 1 - 1 - i = (k - 1 - i) + 1 := by omega
        rw [hidx, Nat.testBit_add_one]
      rw [hmap, ih (v / 2)]
      have hbit : k + 1 - 1 - k = 0 := by omega
      rw [hbit, Nat.testBit_zero]
      have hmod : v % 2 ^ (k + 1) = v % 2 + 2 * (v / 2 % 2 ^ k) := by
        rw [pow_succ, mul_comm (2 ^ k) 2]
        exact Nat.mod_mul
      rw [hmod]
      rcases Nat.mod_two_eq_zero_or_one v with h | h <;> (simp [h]; try omega)

theorem bitsToNat_toBinary64 (v : Nat) (hv : v < 2 ^ 64) :
    bitsToNat (toBinary64 v) = v := by
  have he : toBinary64 v = (List.range 64).map
      (fun i => if v.testBit (64 - 1 - i) then '1' else '0') := rfl
  rw [he, bitsToNat_binChars 64 v, Nat.mod_eq_of_lt hv]

theorem digitChar_isDigit : ∀ d, d < 10 → (Char.ofNat (48 + d)).isDigit = true := by
  decide

theorem natToDecAux_digits (n : Nat) :
    ∀ acc, (∀ c ∈ acc, c.isDigit = true) →
      ∀ c ∈ natToDecAux n acc, c.isDigit = true := by
  induction n using Nat.strong_induction_on with
  | _ n ih =>
      intro acc hacc c hc
      rw [natToDecAux] at hc
      split at hc
      · exact hacc c hc
      · rename_i h
        refine ih (n / 10) (Nat.div_lt_self (Nat.pos_of_ne_zero h) (by decide))
          _ ?_ c hc
        intro d hd
        rcases List.mem_cons.mp hd with rfl | hd
        · exact digitChar_isDigit _ (Nat.mod_lt _ (by decide))
        · exact hacc d hd

theorem natToDec_digits (n : Nat) : ∀ c ∈ (natToDec n).toList, c.isDigit = true := by
  intro c hc
  rw [natToDec, toList_mk] at hc
  split at hc
  · rcases List.mem_singleton.mp hc with rfl
    decide
  · exact natToDecAux_digits n [] (fun d hd => absurd hd (List.not_mem_nil d)) c hc

theorem formatDurationNanos_shape (nanos : Nat) :
    ∃ numStr unit, unit ∈ ["s", "ms", "µs", "ns"] ∧
      formatDurationNanos nanos = numStr ++ unit ∧
      ∀ c ∈ numStr.toList, c.isDigit = true := by
  by_cases h1 : nanos ≥ 1000000000
  · refine ⟨natToDec (nanos / 1000000000), "s", by simp, ?_, natToDec_digits _⟩
    rw [formatDurationNanos, if_pos h1]
  · by_cases h2 : nanos ≥ 1000000
    · refine ⟨natToDec (nanos / 1000000), "ms", by simp, ?_, natToDec_digits _⟩
      rw [formatDurationNanos, if_neg h1, if_pos h2]
    · by_cases h3 : nanos ≥ 1000
      · refine ⟨natToDec (nanos / 1000), "µs", by simp, ?_, natToDec_digits _⟩
        rw [formatDurationNanos, if_neg h1, if_neg h2, if_pos h3]
      · refine ⟨natToDec nanos, "ns", by simp, ?_, natToDec_digits _⟩
        rw [formatDurationNanos, if_neg h1, if_neg h2, if_neg h3]

/-! Claim theorems. -/

/-- Claim C1: for every multiset of operands applied via the atomic
`fetch_xor` in any order (any permutation of the operand list), the value
read at the end equals the XOR-reduction of all operands. -/
theorem atomic_final_value_is_xor_reduction (ops order : List Nat)
    (h : order.Perm ops) :
    atomic.SharedAtomic.get
        (List.foldl atomic.SharedAtomic.fetch_xor atomic.SharedAtomic.new order) =
      List.foldr (· ^^^ ·) 0 ops := by
  show List.foldl atomic.SharedAtomic.fetch_xor 0 order = List.foldr (· ^^^ ·) 0 ops
  rw [h.foldl_eq 0, foldl_fetch_xor]
  simp [Nat.zero_xor]

theorem atomic_final_value_is_xor_reduction_witness :
    List.Perm [3, 1, 2] [1, 2, 3] ∧
      atomic.SharedAtomic.get
          (List.foldl atomic.SharedAtomic.fetch_xor atomic.SharedAtomic.new [3, 1, 2]) =
        List.foldr (· ^^^ ·) 0 [1, 2, 3] :=
  ⟨by decide, atomic_final_value_is_xor_reduction [1, 2, 3] [3, 1, 2] (by decide)⟩

/-- Claim C3: applying the same operand `n` to the atomic counter an even
number of times (`2 * m`) leaves every starting value `v` unchanged; in
particular starting from 0 the final value is 0. -/
theorem atomic_even_applications_cancel (v n m : Nat) :
    (fun c => atomic.SharedAtomic.fetch_xor c n)^[2 * m] v = v ∧
      (fun c => atomic.SharedAtomic.fetch_xor c n)^[2 * m] 0 = 0 := by
  have key : ∀ w : Nat, (fun c => atomic.SharedAtomic.fetch_xor c n)^[2 * m] w = w := by
    intro w
    induction m generalizing w with
    | zero => simp
    | succ m ih =>
        rw [Nat.mul_succ, Function.iterate_add_apply]
        have h2 : (fun c => atomic.SharedAtomic.fetch_xor c n)^[2] w = w := by
          simp [Function.iterate_succ, atomic.SharedAtomic.fetch_xor,
            Nat.xor_assoc, Nat.xor_self, Nat.xor_zero]
        rw [h2, ih]
  exact ⟨key v, key 0⟩

/-- Claim C4: with operands 1, 2, 3, 4 each applied exactly once to the
atomic counter starting from 0, the final value is 1 XOR 2 XOR 3 XOR 4 = 4,
for every application order. -/
theorem four_workers_final_value (order : List Nat)
    (h : order.Perm [1, 2, 3, 4]) :
    atomic.SharedAtomic.get
        (List.foldl atomic.SharedAtomic.fetch_xor atomic.SharedAtomic.new order) = 4 := by
  show List.foldl atomic.SharedAtomic.fetch_xor 0 order = 4
  rw [h.foldl_eq 0]
  decide

theorem four_workers_final_value_witness :
    List.Perm [2, 4, 1, 3] [1, 2, 3, 4] ∧
      atomic.SharedAtomic.get
          (List.foldl atomic.SharedAtomic.fetch_xor atomic.SharedAtomic.new
            [2, 4, 1, 3]) = 4 :=
  ⟨by decide, four_workers_final_value [2, 4, 1, 3] (by decide)⟩

/-- Claim C5: `fetch_xor` of either variant updates a counter holding `v`
to `v XOR n`; a subsequent `get` returns `v XOR n`, and 64-bit values stay
64-bit (no overflow beyond `2 ^ 64`). -/
theorem fetch_xor_updates_value (v n : Nat) (hv : v < 2 ^ 64) (hn : n < 2 ^ 64) :
    unsync.SharedUnsync.get (unsync.SharedUnsync.fetch_xor v n) = v ^^^ n ∧
      atomic.SharedAtomic.get (atomic.SharedAtomic.fetch_xor v n) = v ^^^ n ∧
      v ^^^ n < 2 ^ 64 :=
  ⟨rfl, rfl, Nat.xor_lt_two_pow hv hn⟩

theorem fetch_xor_updates_value_witness :
    (5 : Nat) < 2 ^ 64 ∧ (3 : Nat) < 2 ^ 64 ∧
      (unsync.SharedUnsync.get (unsync.SharedUnsync.fetch_xor 5 3) = 5 ^^^ 3 ∧
        atomic.SharedAtomic.get (atomic.SharedAtomic.fetch_xor 5 3) = 5 ^^^ 3 ∧
        5 ^^^ 3 < 2 ^ 64) :=
  ⟨by decide, by decide, fetch_xor_updates_value 5 3 (by decide) (by decide)⟩

/-- Claim C6: `new` of either variant produces a counter holding 0, and a
`get` on a fresh counter returns 0. -/
theorem new_counter_is_zero :
    unsync.SharedUnsync.new = 0 ∧ atomic.SharedAtomic.new = 0 ∧
      unsync.SharedUnsync.get unsync.SharedUnsync.new = 0 ∧
      atomic.SharedAtomic.get atomic.SharedAtomic.new = 0 :=
  ⟨rfl, rfl, rfl, rfl⟩

/-- Claim C7: one `do_xors` step with operand `n` takes the pair state
`(a, u)` to `(a XOR n, u XOR n)`, issuing the atomic application first and
the unsync application second: after the first of its two events only the
atomic component has been updated. -/
theorem do_xors_atomic_first (n a u : Nat) :
    do_xors n (a, u) = (a ^^^ n, u ^^^ n) ∧
      do_xorsTrace n = [XorEvent.atomicXor n, XorEvent.unsyncXor n] ∧
      runEvents (a, u) (List.take 1 (do_xorsTrace n)) = (a ^^^ n, u) :=
  ⟨rfl, rfl, rfl⟩

/-- Claim C2: the unsynchronized `fetch_xor` is a plain read, an XOR, and a
plain write with no mutual exclusion; its two micro-steps from two threads
can overlap (the conflicting unsynchronized access pattern a race detector
flags, for every pair of operands); and the final value is not guaranteed
to be the XOR of all operands: some interleaving of two `fetch_xor 1` calls
ends with both threads finished and the value 1 instead of 0 ^^^ 1 ^^^ 1 = 0
(a lost update).  A fully serialized schedule, by contrast, does produce the
XOR of both operands. -/
theorem unsync_fetch_xor_is_racy (n1 n2 : Nat) :
    (∀ c n, unsync.SharedUnsync.fetch_xor c n =
        unsync.SharedUnsync.write c (unsync.SharedUnsync.read c ^^^ n)) ∧
      racyOverlap n1 n2 [true, false] ∧
      (∃ sched : List Bool,
        (runRace 1 1 sched raceInit).pc1 = TPC.finished ∧
        (runRace 1 1 sched raceInit).pc2 = TPC.finished ∧
        (runRace 1 1 sched raceInit).shared ≠ ((0 ^^^ 1) ^^^ 1)) ∧
      (runRace n1 n2 [true, true, false, false] raceInit).shared =
        ((0 ^^^ n1) ^^^ n2) :=
  ⟨fun _ _ => rfl,
   ⟨2, rfl, rfl⟩,
   ⟨[true, false, true, false], by decide, by decide, by decide⟩,
   rfl⟩

/-- Claim C8: the workload parameters are the fixed constants 32 threads,
256 outer iterations, 2048 inner repeats; a worker that drew its 256
operands issues 256 × 2048 applications to each counter, and across the 32
workers each counter receives 32 × 256 × 2048 = 16777216 applications. -/
theorem workload_parameters (ops : List Nat) (h : ops.length = outerIters) :
    numThreads = 32 ∧ outerIters = 256 ∧ innerRepeats = 2048 ∧
      countAtomicEvents (workerTrace ops) = outerIters * innerRepeats ∧
      countUnsyncEvents (workerTrace ops) = outerIters * innerRepeats ∧
      numThreads * (outerIters * innerRepeats) = 16777216 := by
  refine ⟨rfl, rfl, rfl, ?_, ?_, by decide⟩
  · rw [countAtomicEvents, countP_workerTrace isAtomicEvent (fun n => rfl) ops, h]
  · rw [countUnsyncEvents, countP_workerTrace isUnsyncEvent (fun n => rfl) ops, h]

theorem workload_parameters_witness :
    (List.replicate 256 (0 : Nat)).length = outerIters ∧
      (numThreads = 32 ∧ outerIters = 256 ∧ innerRepeats = 2048 ∧
        countAtomicEvents (workerTrace (List.replicate 256 (0 : Nat))) =
          outerIters * innerRepeats ∧
        countUnsyncEvents (workerTrace (List.replicate 256 (0 : Nat))) =
          outerIters * innerRepeats ∧
        numThreads * (outerIters * innerRepeats) = 16777216) :=
  ⟨(List.length_replicate 256 0).trans rfl,
   workload_parameters (List.replicate 256 0)
     ((List.length_replicate 256 0).trans rfl)⟩

/-- Claim C9: the observable trace of the driver ends, after all 32 join events
(and no print before them), with exactly three print events in order:
`unsync: ` then the unsync value zero-padded to 64 binary digits, `atomic: `
in the same format, and `took ` followed by an integer duration with a unit
suffix and no fractional digits; the binary strings have length 64 and
decode back to the printed values, and the exit code is 0. -/
theorem driver_output_format (u a nanos : Nat)
    (hu : u < 2 ^ 64) (ha : a < 2 ^ 64) :
    (mainTrace u a nanos).drop (2 * numThreads) =
        [MainEvent.printLine ("unsync: " ++ formatBinary64 u),
         MainEvent.printLine ("atomic: " ++ formatBinary64 a),
         MainEvent.printLine ("took " ++ formatDurationNanos nanos)] ∧
      (∀ e ∈ (mainTrace u a nanos).take (2 * numThreads),
        ∀ s, e ≠ MainEvent.printLine s) ∧
      (formatBinary64 u).length = 64 ∧ (formatBinary64 a).length = 64 ∧
      bitsToNat (formatBinary64 u).toList = u ∧
      bitsToNat (formatBinary64 a).toList = a ∧
      (∃ numStr unit, unit ∈ ["s", "ms", "µs", "ns"] ∧
        formatDurationNanos nanos = numStr ++ unit ∧
        ∀ c ∈ numStr.toList, c.isDigit = true) ∧
      mainExitCode = 0 := by
  have hassoc : mainTrace u a nanos =
      (((List.range numThreads).map MainEvent.spawn)
          ++ ((List.range numThreads).map MainEvent.join))
        ++ [MainEvent.printLine ("unsync: " ++ formatBinary64 u),
            MainEvent.printLine ("atomic: " ++ formatBinary64 a),
            MainEvent.printLine ("took " ++ formatDurationNanos nanos)] := rfl
  have hlen : (((List.range numThreads).map MainEvent.spawn)
      ++ ((List.range numThreads).map MainEvent.join)).length = 2 * numThreads := by
    simp [numThreads]
  refine ⟨?_, ?_, ?_, ?_, ?_, ?_, formatDurationNanos_shape nanos, rfl⟩
  · rw [hassoc, List.drop_left' hlen]
  · intro e he s
    rw [hassoc, List.take_left' hlen] at he
    rcases List.mem_append.mp he with h | h <;>
      · obtain ⟨i, _, rfl⟩ := List.mem_map.mp h
        simp
  · show (toBinary64 u).length = 64
    exact length_toBinary64 u
  · show (toBinary64 a).length = 64
    exact length_toBinary64 a
  · rw [formatBinary64, toList_mk]
    exact bitsToNat_toBinary64 u hu
  · rw [formatBinary64, toList_mk]
    exact bitsToNat_toBinary64 a ha

theorem driver_output_format_witness :
    (0 : Nat) < 2 ^ 64 ∧ (4 : Nat) < 2 ^ 64 ∧
      ((mainTrace 0 4 5000000).drop (2 * numThreads) =
          [MainEvent.printLine ("unsync: " ++ formatBinary64 0),
           MainEvent.printLine ("atomic: " ++ formatBinary64 4),
           MainEvent.printLine ("took " ++ formatDurationNanos 5000000)] ∧
        (∀ e ∈ (mainTrace 0 4 5000000).take (2 * numThreads),
          ∀ s, e ≠ MainEvent.printLine s) ∧
        (formatBinary64 0).length = 64 ∧ (formatBinary64 4).length = 64 ∧
        bitsToNat (formatBinary64 0).toList = 0 ∧
        bitsToNat (formatBinary64 4).toList = 4 ∧
        (∃ numStr unit, unit ∈ ["s", "ms", "µs", "ns"] ∧
          formatDurationNanos 5000000 = numStr ++ unit ∧
          ∀ c ∈ numStr.toList, c.isDigit = true) ∧
        mainExitCode = 0) :=
  ⟨by norm_num, by norm_num,
   driver_output_format 0 4 5000000 (by norm_num) (by norm_num)⟩

/-- Claim C10: executed sequentially, the two variants are behaviorally
equivalent: both start at 0, `get` returns the stored value, `fetch_xor`
replaces `v` by `v XOR n`, and every operand sequence yields equal final
values. -/
theorem sequential_equivalence (ops : List Nat) :
    unsync.SharedUnsync.new = atomic.SharedAtomic.new ∧
      (∀ c, unsync.SharedUnsync.get c = c ∧ atomic.SharedAtomic.get c = c) ∧
      (∀ c n, unsync.SharedUnsync.fetch_xor c n = c ^^^ n ∧
        atomic.SharedAtomic.fetch_xor c n = c ^^^ n) ∧
      List.foldl unsync.SharedUnsync.fetch_xor unsync.SharedUnsync.new ops =
        List.foldl atomic.SharedAtomic.fetch_xor atomic.SharedAtomic.new ops :=
  ⟨rfl, fun _ => ⟨rfl, rfl⟩, fun _ _ => ⟨rfl, rfl⟩, rfl⟩

end Contest
